import Mathlib

/-!
Shallow embedding of the mactrack degree-requirement validator.

The embedded code is `ValidatePlan` and its helpers from
`src/pkg/handlers_auth.go` (the current version of the validator, the one
the repository's specification describes), together with the course-unit
inference helper `unitsFromCourseNumber` (also `UnitsFromCourseNumber` in
`src/unnamed/part_009`, same body) and the data model from
`src/unnamed/part_009` / `src/pkg/models.go`.

Modelling conventions:
- Go strings are Lean `String`s; all inputs of interest are ASCII, so
  `strings.TrimSpace`, `strings.ToUpper`, `strings.EqualFold` are modelled
  by their ASCII behaviour (Lean `String.trim`, `String.toUpper`).
- Go `int` is modelled as `Int` (the validator's arithmetic stays far from
  64-bit overflow for any input of interest).
- The `completedSet` Go map is only ever used for key membership, so it is
  modelled as the list of its keys with `List.contains` membership.
- The requisite lookup (`s.Repo.DB.Query` over the `requisites` table
  filtered to kind = PREREQ, plus the row scan) is the external
  collaborator: it is a parameter returning either the scanned
  `(req_subject, req_course_number)` rows or an error (a query error or a
  row-scan error propagate identically in the Go code, up to message
  wrapping, so a single abstract error value models both).
- A Go runtime panic (the out-of-range index `strings.SplitN(code, " ", 2)[1]`
  when `code` contains no space) is modelled as the `GoOutcome.panic`
  outcome, propagated like an exception.
- Struct fields never read by the validator (database row ids, display
  order, catalog metadata) are omitted from the embedded records.
-/

namespace Mactrack

/-- ASCII whitespace, as recognised by Go `unicode.IsSpace`. -/
def goIsSpace (c : Char) : Bool :=
  c == ' ' || c == '\t' || c == '\n' || c == '\x0b' || c == '\x0c' || c == '\r'

/-- Model of Go `strings.TrimSpace` (ASCII whitespace): drop whitespace
from both ends. -/
def goTrim (s : String) : String :=
  String.mk (((s.toList.dropWhile goIsSpace).reverse.dropWhile goIsSpace).reverse)

/-- ASCII upper-casing of one character. -/
def goUpperChar (c : Char) : Char :=
  if 'a' ≤ c ∧ c ≤ 'z' then Char.ofNat (c.toNat - 32) else c

/-- Model of Go `strings.ToUpper` (ASCII). -/
def goToUpper (s : String) : String := String.mk (s.toList.map goUpperChar)

/-- Model of Go `strings.EqualFold` (ASCII case folding). -/
def goEqualFold (a b : String) : Bool := goToUpper a == goToUpper b

/-- Model of Go `strings.Join` with a separator. -/
def goJoin (sep : String) : List String → String
  | [] => ""
  | [s] => s
  | s :: rest => s ++ sep ++ goJoin sep rest

/-- All-digit parse of a character list (the digit tail of Go
`strconv.Atoi`); `none` when empty or any non-digit appears. -/
def parseDigits (cs : List Char) : Option Nat :=
  if cs.isEmpty then none
  else if cs.all Char.isDigit then
    some (cs.foldl (fun a c => a * 10 + (c.toNat - 48)) 0)
  else none

/-- Model of Go `strconv.Atoi`: optional sign followed by at least one
digit, nothing else. (Overflow is ignored: the validator only parses
two-character suffixes.) -/
def goAtoi (s : String) : Option Int :=
  match s.toList with
  | [] => none
  | '+' :: cs => (parseDigits cs).map Int.ofNat
  | '-' :: cs => (parseDigits cs).map (fun n => -(Int.ofNat n))
  | cs => (parseDigits cs).map Int.ofNat

/-- Split a character list at its first space: `none` when no space
occurs. -/
def breakAtSpace : List Char → Option (List Char × List Char)
  | [] => none
  | c :: cs =>
    if c == ' ' then some ([], cs)
    else (breakAtSpace cs).map (fun p => (c :: p.1, p.2))

/-- Model of Go `strings.SplitN(s, " ", 2)`: at most two fields, split at
the first space. -/
def splitN2 (s : String) : List String :=
  match breakAtSpace s.toList with
  | none => [s]
  | some (a, b) => [String.mk a, String.mk b]

/-- The last two characters of a course number (Go `courseNumber[len-2:]`,
only taken under the `len >= 2` guard). -/
def suffix2 (s : String) : String :=
  String.mk (s.toList.drop (s.length - 2))

/-- `unitsFromCourseNumber` from `src/pkg/handlers_auth.go`
(= `UnitsFromCourseNumber` in `src/unnamed/part_009`): the last two
characters of the course number encode the unit count; fall back to
`defaultUnits` when the number is too short, the suffix is unparseable,
or it parses to zero. -/
def unitsFromCourseNumber (courseNumber : String) (defaultUnits : Int) : Int :=
  if courseNumber.length < 2 then defaultUnits
  else
    match goAtoi (suffix2 courseNumber) with
    | none => defaultUnits
    | some n => if n == 0 then defaultUnits else n

/-- `defaultUnitsPerCourse` from `ValidatePlan`. -/
def defaultUnitsPerCourse : Int := 3

/-- `PlanItem` (fields read by the validator). -/
structure PlanItem where
  subject : String
  courseNumber : String
  status : String
  grade : Option String := none
  note : Option String := none
deriving Repr, DecidableEq

/-- `RequirementCourse` (fields read by the validator). -/
structure RequirementCourse where
  courseCode : String
  courseName : String := ""
  isOrWithNext : Bool
  adhocText : Option String := none
deriving Repr, DecidableEq

/-- `RequirementGroup`: a node of the requirement tree (fields read by the
validator). Recursive through the `children` list. -/
inductive RequirementGroup where
  | mk (heading : String) (headingLevel : Int)
      (unitsRequired coursesRequired : Option Int)
      (isElective isContainer : Bool)
      (children : List RequirementGroup)
      (courses : List RequirementCourse)
deriving Repr

def RequirementGroup.heading : RequirementGroup → String
  | .mk h _ _ _ _ _ _ _ => h

def RequirementGroup.headingLevel : RequirementGroup → Int
  | .mk _ l _ _ _ _ _ _ => l

def RequirementGroup.unitsRequired : RequirementGroup → Option Int
  | .mk _ _ u _ _ _ _ _ => u

def RequirementGroup.coursesRequired : RequirementGroup → Option Int
  | .mk _ _ _ c _ _ _ _ => c

def RequirementGroup.isElective : RequirementGroup → Bool
  | .mk _ _ _ _ e _ _ _ => e

def RequirementGroup.isContainer : RequirementGroup → Bool
  | .mk _ _ _ _ _ c _ _ => c

def RequirementGroup.children : RequirementGroup → List RequirementGroup
  | .mk _ _ _ _ _ _ ch _ => ch

def RequirementGroup.courses : RequirementGroup → List RequirementCourse
  | .mk _ _ _ _ _ _ _ cs => cs

/-- `Program` (fields read by the validator). -/
structure Program where
  name : String := ""
  degreeType : String := ""
  totalUnits : Option Int := none
  groups : List RequirementGroup
deriving Repr

/-- `PrereqWarning` output row. -/
structure PrereqWarning where
  course : String
  missingPrereq : String
deriving Repr, DecidableEq

/-- `GroupResult` output row. -/
structure GroupResult where
  heading : String
  satisfied : Bool
  unitsCompleted : Int
  unitsRequired : Int
  missingCourses : List String
deriving Repr, DecidableEq

/-- `ValidationResult`, the validator's sole output value. -/
structure ValidationResult where
  totalUnitsRequired : Int
  totalUnitsCompleted : Int
  unitsRemaining : Int
  groups : List GroupResult
  prereqWarnings : List PrereqWarning
deriving Repr, DecidableEq

/-- The zero `ValidationResult` (Go `ValidationResult{}`), returned next to
a propagated lookup error. -/
def zeroValidationResult : ValidationResult :=
  { totalUnitsRequired := 0, totalUnitsCompleted := 0, unitsRemaining := 0,
    groups := [], prereqWarnings := [] }

/-- How one call of the Go function `ValidatePlan` ends: a normal return
`(result, nil)`, an error return `(ValidationResult{}, err)`, or a runtime
panic. -/
inductive GoOutcome where
  | ok (r : ValidationResult)
  | fail (r : ValidationResult) (e : String)
  | panic
deriving Repr, DecidableEq

/-- The requisite lookup collaborator: PREREQ rows
`(req_subject, req_course_number)` for a course, or a lookup error. -/
def RequisiteLookup := String → String → Except String (List (String × String))

/-- The completion index built by `ValidatePlan`'s first loop: the keys
`TrimSpace(subject + " " + courseNumber)` of the plan items whose status is
COMPLETED under `strings.EqualFold`. (The Go map is only used for key
membership, so the key list carries the same information.) -/
def completedSet (planItems : List PlanItem) : List String :=
  (planItems.filter (fun pi => goEqualFold pi.status "COMPLETED")).map
    (fun pi => goTrim (pi.subject ++ " " ++ pi.courseNumber))

/-- The prerequisite-warning loop of `ValidatePlan`: for each plan item
whose upper-cased status is PLANNED or IN_PROGRESS, fetch the PREREQ rows;
a lookup error aborts the whole validation; otherwise, when the course has
at least one prerequisite and none of them is in the completion index,
emit one warning joining all options with `" or "`. -/
def prereqPass (lookup : RequisiteLookup) (completed : List String) :
    List PlanItem → Except String (List PrereqWarning)
  | [] => .ok []
  | pi :: rest =>
    let statusUpper := goToUpper pi.status
    if statusUpper ≠ "PLANNED" ∧ statusUpper ≠ "IN_PROGRESS" then
      prereqPass lookup completed rest
    else
      match lookup pi.subject pi.courseNumber with
      | .error e => .error e
      | .ok rows =>
        let prereqs := rows.map (fun r => goTrim (r.1 ++ " " ++ r.2))
        match prereqPass lookup completed rest with
        | .error e => .error e
        | .ok ws =>
          if prereqs.length > 0 ∧ ¬ prereqs.any completed.contains then
            .ok ({ course := goTrim (pi.subject ++ " " ++ pi.courseNumber),
                   missingPrereq := goJoin " or " prereqs } :: ws)
          else
            .ok ws

/-- The OR-chain collection of `walkGroup`'s slot loop, applied to the
slots after the chain's first member: take slots while they carry the
OR-with-next flag, and include the first slot that does not. -/
def chainTail : List RequirementCourse → List RequirementCourse
  | [] => []
  | c :: cs => if c.isOrWithNext then c :: chainTail cs else [c]

/-- The slot loop of `walkGroup`: walk a group's course slots left to
right, resolving OR-chains, and return the group's completed units and
missing-course list. `none` models the Go runtime panic raised by
`strings.SplitN(code, " ", 2)[1]` when a matched course code contains no
space. -/
def walkCourses (completed : List String) :
    List RequirementCourse → Option (Int × List String)
  | [] => some (0, [])
  | rc :: rest =>
    if rc.isOrWithNext then
      let chain := rc :: chainTail rest
      let rest' := rest.drop (chainTail rest).length
      match chain.find? (fun c => completed.contains (goTrim c.courseCode)) with
      | some m =>
        match (splitN2 (goTrim m.courseCode))[1]? with
        | none => none
        | some part =>
          match walkCourses completed rest' with
          | none => none
          | some (u, miss) =>
            some (unitsFromCourseNumber (goTrim part) defaultUnitsPerCourse + u, miss)
      | none =>
        match walkCourses completed rest' with
        | none => none
        | some (u, miss) =>
          some (u, ((chain.filter (fun c => c.courseCode ≠ "")).map
                      (fun c => goTrim c.courseCode)) ++ miss)
    else
      let code := goTrim rc.courseCode
      if completed.contains code then
        match (splitN2 rc.courseCode)[1]? with
        | none => none
        | some part =>
          match walkCourses completed rest with
          | none => none
          | some (u, miss) =>
            some (unitsFromCourseNumber part defaultUnitsPerCourse + u, miss)
      else
        match walkCourses completed rest with
        | none => none
        | some (u, miss) =>
          some (u, (if code ≠ "" then [code] else []) ++ miss)
termination_by l => l.length
decreasing_by
  all_goals simp [List.length_drop]
  all_goals omega

mutual

/-- The recursive `walkGroup` closure of `ValidatePlan`. Returns the
group's contribution `(Δ totalRequired, Δ totalCompleted, result rows)`;
`none` models the panic propagated out of the slot loop. Container groups
(explicit flag, or children present with zero slots) contribute no row of
their own and delegate to their children. -/
def walkGroup (completed : List String) (g : RequirementGroup) :
    Option (Int × Int × List GroupResult) :=
  if g.isContainer || (g.courses.length == 0 && g.children.length > 0) then
    walkGroupList completed g.children
  else
    let unitsReq : Int :=
      match g.unitsRequired with
      | some u => u
      | none =>
        match g.coursesRequired with
        | some c => c * defaultUnitsPerCourse
        | none => 0
    let reqDelta := if unitsReq > 0 then unitsReq else 0
    match walkCourses completed g.courses with
    | none => none
    | some (unitsCompleted, missing) =>
      let satisfied :=
        if unitsReq == 0 then missing.isEmpty else unitsCompleted ≥ unitsReq
      let compDelta := if unitsCompleted > 0 then unitsCompleted else 0
      match walkGroupList completed g.children with
      | none => none
      | some (rq, cu, rows) =>
        some (reqDelta + rq, compDelta + cu,
          { heading := g.heading, satisfied := satisfied,
            unitsCompleted := unitsCompleted, unitsRequired := unitsReq,
            missingCourses := missing } :: rows)
termination_by sizeOf g
decreasing_by
  all_goals cases g
  all_goals simp [RequirementGroup.children]
  all_goals omega

/-- Sequential walk over a list of sibling groups, accumulating the two
unit totals and concatenating result rows in order. -/
def walkGroupList (completed : List String) :
    List RequirementGroup → Option (Int × Int × List GroupResult)
  | [] => some (0, 0, [])
  | g :: gs =>
    match walkGroup completed g with
    | none => none
    | some (rq₁, cu₁, rows₁) =>
      match walkGroupList completed gs with
      | none => none
      | some (rq₂, cu₂, rows₂) =>
        some (rq₁ + rq₂, cu₁ + cu₂, rows₁ ++ rows₂)
termination_by l => sizeOf l
decreasing_by
  all_goals simp
  all_goals omega

end

/-- The units-required threshold `walkGroup` resolves for a non-container
group: prefer the explicit `units_required`; else `courses_required`
times the default unit value; else 0. -/
def unitsReqOf (g : RequirementGroup) : Int :=
  match g.unitsRequired with
  | some u => u
  | none =>
    match g.coursesRequired with
    | some c => c * defaultUnitsPerCourse
    | none => 0

mutual

/-- The non-container nodes of a requirement subtree, in pre-order: the
groups for which the walk emits a `GroupResult` row. -/
def preorderNonContainers (g : RequirementGroup) : List RequirementGroup :=
  if g.isContainer || (g.courses.length == 0 && g.children.length > 0) then
    preorderNonContainersList g.children
  else
    g :: preorderNonContainersList g.children
termination_by sizeOf g
decreasing_by
  all_goals cases g
  all_goals simp [RequirementGroup.children]
  all_goals omega

/-- Pre-order non-container nodes of a forest of requirement groups. -/
def preorderNonContainersList : List RequirementGroup → List RequirementGroup
  | [] => []
  | g :: gs => preorderNonContainers g ++ preorderNonContainersList gs
termination_by l => sizeOf l
decreasing_by
  all_goals simp
  all_goals omega

end

/-- Normalisation of a plan item's status: items completed under
case-insensitive comparison get the canonical upper-case status. -/
def normalizeCompleted (pi : PlanItem) : PlanItem :=
  if goEqualFold pi.status "COMPLETED" then { pi with status := "COMPLETED" } else pi

/-- `ValidatePlan` from `src/pkg/handlers_auth.go`: build the completion
index, run the prerequisite-warning loop (propagating any lookup error
with a zero result), walk every root requirement group, and clamp the
remaining units at zero. -/
def ValidatePlan (lookup : RequisiteLookup) (planItems : List PlanItem)
    (program : Program) : GoOutcome :=
  let completed := completedSet planItems
  match prereqPass lookup completed planItems with
  | .error e => .fail zeroValidationResult e
  | .ok warnings =>
    match walkGroupList completed program.groups with
    | none => .panic
    | some (totalRequired, totalCompleted, groupResults) =>
      let unitsRemaining :=
        if totalRequired - totalCompleted < 0 then 0
        else totalRequired - totalCompleted
      .ok { totalUnitsRequired := totalRequired,
            totalUnitsCompleted := totalCompleted,
            unitsRemaining := unitsRemaining,
            groups := groupResults,
            prereqWarnings := warnings }

/-! Concrete sample inputs used to exercise the theorems below. -/

/-- A requisite lookup with no rows for any course. -/
def emptyLookup : RequisiteLookup := fun _ _ => .ok []

/-- A requisite lookup giving CS 2C03 two alternative prerequisites. -/
def twoPrereqLookup : RequisiteLookup := fun s n =>
  if s == "CS" && n == "2C03" then .ok [("CS", "1A03"), ("CS", "1B03")]
  else .ok []

/-- A requisite lookup that fails on every CS course. -/
def failingLookup : RequisiteLookup := fun s _ =>
  if s == "CS" then .error "db down" else .ok []

/-- A planned CS 2C03 course. -/
def plannedItem : PlanItem :=
  { subject := "CS", courseNumber := "2C03", status := "PLANNED" }

/-- A completed plan item whose subject+number key contains no space. -/
def spacelessItem : PlanItem :=
  { subject := "CS1A03", courseNumber := "", status := "COMPLETED" }

/-- A one-group program whose only course slot code contains no space. -/
def spacelessProgram : Program :=
  { groups := [.mk "X" 2 none none false false []
      [{ courseCode := "CS1A03", isOrWithNext := false }]] }

def orSlotA : RequirementCourse := { courseCode := "M 1B03", isOrWithNext := true }

def orSlotB : RequirementCourse := { courseCode := "M 4Z13", isOrWithNext := true }

def orSlotC : RequirementCourse := { courseCode := "M 1ZB3", isOrWithNext := false }

/-- A leaf group holding one three-course OR-chain. -/
def orGroup : RequirementGroup :=
  .mk "OrChain" 2 none none false false [] [orSlotA, orSlotB, orSlotC]

def slotA03 : RequirementCourse := { courseCode := "CS 1A03", isOrWithNext := false }

def slotB03 : RequirementCourse := { courseCode := "CS 1B03", isOrWithNext := false }

/-- The spec's Core scenario group: 6 units required, two single slots. -/
def coreGroup : RequirementGroup :=
  .mk "Core" 2 (some 6) none false false [] [slotA03, slotB03]

def coreProgram : Program := { groups := [coreGroup] }

/-- A plan with only CS 1A03 completed. -/
def corePlan : List PlanItem :=
  [{ subject := "CS", courseNumber := "1A03", status := "COMPLETED" }]

/-- A leaf group with a negative explicit units-required threshold. -/
def negGroup : RequirementGroup :=
  .mk "Neg" 2 (some (-5)) none false false [] [slotB03]

/-- A container group with two leaf children and no direct slots. -/
def containerGroup : RequirementGroup :=
  .mk "Level II" 1 none none false true [coreGroup, orGroup] []

/-- The validation result of the Core scenario (6 required, 3 completed). -/
def coreResult : ValidationResult :=
  { totalUnitsRequired := 6, totalUnitsCompleted := 3, unitsRemaining := 3,
    groups := [{ heading := "Core", satisfied := false, unitsCompleted := 3,
                 unitsRequired := 6, missingCourses := ["CS 1B03"] }],
    prereqWarnings := [] }

/-! Theorems. -/

/-- Claim C6: a course number that is shorter than two characters, or
whose last-two-character suffix is non-numeric or parses to zero, is given
the default unit value 3, never 0. -/
theorem C6_unit_inference_fallback (courseNumber : String)
    (h : courseNumber.length < 2 ∨ goAtoi (suffix2 courseNumber) = none ∨
         goAtoi (suffix2 courseNumber) = some 0) :
    unitsFromCourseNumber courseNumber defaultUnitsPerCourse = 3 ∧
    unitsFromCourseNumber courseNumber defaultUnitsPerCourse ≠ 0 := by
  have h3 : unitsFromCourseNumber courseNumber defaultUnitsPerCourse = 3 := by
    unfold unitsFromCourseNumber defaultUnitsPerCourse
    split
    · rfl
    · rcases h with h | h | h
      · omega
      · rw [h]
      · rw [h]; rfl
  exact ⟨h3, by rw [h3]; decide⟩

/-- Witness for C6 at the spec's examples: "1A00" has a numeric suffix
parsing to zero, "4ZZ" a non-numeric one; both infer 3 units. -/
theorem C6_unit_inference_fallback_witness :
    (unitsFromCourseNumber "1A00" defaultUnitsPerCourse = 3 ∧
     unitsFromCourseNumber "1A00" defaultUnitsPerCourse ≠ 0) ∧
    (unitsFromCourseNumber "4ZZ" defaultUnitsPerCourse = 3 ∧
     unitsFromCourseNumber "4ZZ" defaultUnitsPerCourse ≠ 0) :=
  ⟨C6_unit_inference_fallback "1A00" (Or.inr (Or.inr (by decide))),
   C6_unit_inference_fallback "4ZZ" (Or.inr (Or.inl (by decide)))⟩

/-- Claim C4 is refuted by the code: on a plan whose completed course key
contains no space (empty course number) matching an identical course slot
code, the validator's unit-inference step evaluates
`strings.SplitN(code, " ", 2)[1]` on a one-element slice and panics, so
`ValidatePlan` does not return normally on this malformed plan/tree data. -/
theorem C4_spaceless_code_panics :
    ValidatePlan emptyLookup [spacelessItem] spacelessProgram = GoOutcome.panic := by
  simp +decide [ValidatePlan, prereqPass, walkGroup, walkGroupList, walkCourses,
    completedSet, chainTail, goTrim, goToUpper, goUpperChar, goIsSpace, goEqualFold,
    goJoin, splitN2, breakAtSpace, unitsFromCourseNumber, suffix2, goAtoi, parseDigits,
    defaultUnitsPerCourse, zeroValidationResult, emptyLookup, spacelessItem,
    spacelessProgram, List.find?, RequirementGroup.isContainer, RequirementGroup.children,
    RequirementGroup.courses, RequirementGroup.heading, RequirementGroup.unitsRequired,
    RequirementGroup.coursesRequired]

/-- Collecting an OR-chain: from a run of OR-flagged slots followed by one
unflagged slot, `chainTail` takes exactly the run and its terminator. -/
theorem chainTail_concat (cs : List RequirementCourse) (c : RequirementCourse)
    (rest : List RequirementCourse)
    (hcs : ∀ x ∈ cs, x.isOrWithNext = true) (hc : c.isOrWithNext = false) :
    chainTail (cs ++ c :: rest) = cs ++ [c] := by
  induction cs with
  | nil => simp [chainTail, hc]
  | cons a as ih =>
    have ha : a.isOrWithNext = true := hcs a (List.mem_cons_self a as)
    simp only [List.cons_append, chainTail, ha, if_true]
    exact congrArg (a :: ·) (ih (fun x hx => hcs x (List.mem_cons_of_mem a hx)))

/-- Dropping a collected OR-chain from the slot list leaves exactly the
slots after the chain's terminator. -/
theorem drop_after_chain (cs : List RequirementCourse) (c : RequirementCourse)
    (rest : List RequirementCourse) :
    (cs ++ c :: rest).drop (cs ++ [c]).length = rest := by
  have h : cs ++ c :: rest = (cs ++ [c]) ++ rest := by simp
  rw [h, List.drop_left]

/-- One step of the slot walk at the head of an OR-chain: the chain is the
flagged run plus its terminator, the first chain member whose trimmed code
is completed decides satisfaction, and the walk continues after the
chain. -/
theorem walkCourses_chain (completed : List String) (c₀ : RequirementCourse)
    (cs : List RequirementCourse) (c : RequirementCourse) (rest : List RequirementCourse)
    (h₀ : c₀.isOrWithNext = true) (hcs : ∀ x ∈ cs, x.isOrWithNext = true)
    (hc : c.isOrWithNext = false) :
    walkCourses completed (c₀ :: (cs ++ c :: rest)) =
      match (c₀ :: (cs ++ [c])).find?
          (fun x => completed.contains (goTrim x.courseCode)) with
      | some m =>
        match (splitN2 (goTrim m.courseCode))[1]? with
        | none => none
        | some part =>
          match walkCourses completed rest with
          | none => none
          | some (u, miss) =>
            some (unitsFromCourseNumber (goTrim part) defaultUnitsPerCourse + u, miss)
      | none =>
        match walkCourses completed rest with
        | none => none
        | some (u, miss) =>
          some (u, (((c₀ :: (cs ++ [c])).filter (fun x => x.courseCode ≠ "")).map
                      (fun x => goTrim x.courseCode)) ++ miss) := by
  rw [walkCourses]
  simp only [h₀, if_true, chainTail_concat cs c rest hcs hc,
    drop_after_chain cs c rest]

/-- The non-container branch of `walkGroup`: the group contributes its
resolved threshold (when positive) to the required total, its completed
units (when positive) to the completed total, and one result row placed
before its descendants' rows. -/
theorem walkGroup_noncontainer (completed : List String) (g : RequirementGroup)
    (u : Int) (miss : List String) (rq cu : Int) (rows : List GroupResult)
    (hcont : g.isContainer = false) (hlc : g.courses ≠ [] ∨ g.children = [])
    (hwc : walkCourses completed g.courses = some (u, miss))
    (hch : walkGroupList completed g.children = some (rq, cu, rows)) :
    walkGroup completed g = some
      ((if 0 < unitsReqOf g then unitsReqOf g else 0) + rq,
       (if 0 < u then u else 0) + cu,
       { heading := g.heading,
         satisfied := if unitsReqOf g == 0 then miss.isEmpty
                      else decide (u ≥ unitsReqOf g),
         unitsCompleted := u, unitsRequired := unitsReqOf g,
         missingCourses := miss } :: rows) := by
  have hcond : (g.isContainer ||
      (g.courses.length == 0 && decide (g.children.length > 0))) = false := by
    rcases hlc with h | h <;> simp [hcont, h]
  rw [walkGroup, hcond]
  simp only [Bool.false_eq_true, if_false, hwc, hch, unitsReqOf]

/-- Claim C1: for an OR-chain in a non-container group (a run of
OR-flagged slots plus its unflagged terminator), if some chain member's
trimmed code is in the completion index, the slot walk adds to the group's
completed units the unit value inferred from the matched course's own
number suffix (`unitsFromCourseNumber` on the part after the first space,
default 3) — not a flat per-course constant — and the group's result row
carries exactly that completed-units value. -/
theorem C1_or_chain_inferred_units (completed : List String) (g : RequirementGroup)
    (c₀ : RequirementCourse) (cs : List RequirementCourse) (c : RequirementCourse)
    (rest : List RequirementCourse) (m : RequirementCourse) (part : String)
    (u : Int) (miss : List String)
    (hcont : g.isContainer = false)
    (hcourses : g.courses = c₀ :: (cs ++ c :: rest))
    (h₀ : c₀.isOrWithNext = true) (hcs : ∀ x ∈ cs, x.isOrWithNext = true)
    (hc : c.isOrWithNext = false)
    (hfind : (c₀ :: (cs ++ [c])).find?
        (fun x => completed.contains (goTrim x.courseCode)) = some m)
    (hsplit : (splitN2 (goTrim m.courseCode))[1]? = some part)
    (hrest : walkCourses completed rest = some (u, miss)) :
    walkCourses completed g.courses =
      some (unitsFromCourseNumber (goTrim part) defaultUnitsPerCourse + u, miss) ∧
    ∀ rq cu rows, walkGroupList completed g.children = some (rq, cu, rows) →
      walkGroup completed g = some
        ((if 0 < unitsReqOf g then unitsReqOf g else 0) + rq,
         (if 0 < unitsFromCourseNumber (goTrim part) defaultUnitsPerCourse + u
          then unitsFromCourseNumber (goTrim part) defaultUnitsPerCourse + u else 0) + cu,
         { heading := g.heading,
           satisfied := if unitsReqOf g == 0 then miss.isEmpty
             else decide (unitsFromCourseNumber (goTrim part) defaultUnitsPerCourse + u ≥
               unitsReqOf g),
           unitsCompleted := unitsFromCourseNumber (goTrim part) defaultUnitsPerCourse + u,
           unitsRequired := unitsReqOf g,
           missingCourses := miss } :: rows) := by
  have hwc : walkCourses completed g.courses =
      some (unitsFromCourseNumber (goTrim part) defaultUnitsPerCourse + u, miss) := by
    rw [hcourses, walkCourses_chain completed c₀ cs c rest h₀ hcs hc]
    simp only [hfind, hsplit, hrest]
  refine ⟨hwc, ?_⟩
  intro rq cu rows hch
  exact walkGroup_noncontainer completed g _ miss rq cu rows hcont
    (Or.inl (by rw [hcourses]; exact List.cons_ne_nil _ _)) hwc hch

/-- Witness for C1: with only M 4Z13 completed, the three-course OR-chain
contributes 13 units (the suffix of "4Z13"), not the flat default 3. -/
theorem C1_or_chain_inferred_units_witness :
    walkCourses ["M 4Z13"] orGroup.courses = some (13, []) ∧
    walkGroup ["M 4Z13"] orGroup =
      some (0, 13, [{ heading := "OrChain", satisfied := true, unitsCompleted := 13,
                      unitsRequired := 0, missingCourses := [] }]) := by
  have h := C1_or_chain_inferred_units ["M 4Z13"] orGroup orSlotA [orSlotB] orSlotC []
    orSlotB "4Z13" 0 [] (by decide) (by decide) (by decide) (by decide) (by decide)
    (by decide) (by decide) (by simp [walkCourses])
  constructor
  · rw [h.1]; decide
  · have h2 := h.2 0 0 [] (by simp [walkGroupList, orGroup, RequirementGroup.children])
    rw [h2]; decide

/-- Claim C5: for an OR-chain none of whose members' trimmed codes is in
the completion index, the slot walk appends every chain member's non-empty
code (trimmed) — and nothing else from that chain — to the group's missing
list, and continues with the slots after the chain; the group's result row
carries exactly that missing list. -/
theorem C5_unsatisfied_chain_missing (completed : List String) (g : RequirementGroup)
    (c₀ : RequirementCourse) (cs : List RequirementCourse) (c : RequirementCourse)
    (rest : List RequirementCourse) (u : Int) (miss : List String)
    (hcont : g.isContainer = false)
    (hcourses : g.courses = c₀ :: (cs ++ c :: rest))
    (h₀ : c₀.isOrWithNext = true) (hcs : ∀ x ∈ cs, x.isOrWithNext = true)
    (hc : c.isOrWithNext = false)
    (hfind : (c₀ :: (cs ++ [c])).find?
        (fun x => completed.contains (goTrim x.courseCode)) = none)
    (hrest : walkCourses completed rest = some (u, miss)) :
    walkCourses completed g.courses =
      some (u, (((c₀ :: (cs ++ [c])).filter (fun x => x.courseCode ≠ "")).map
                  (fun x => goTrim x.courseCode)) ++ miss) ∧
    ∀ rq cu rows, walkGroupList completed g.children = some (rq, cu, rows) →
      walkGroup completed g = some
        ((if 0 < unitsReqOf g then unitsReqOf g else 0) + rq,
         (if 0 < u then u else 0) + cu,
         { heading := g.heading,
           satisfied := if unitsReqOf g == 0 then
               ((((c₀ :: (cs ++ [c])).filter (fun x => x.courseCode ≠ "")).map
                  (fun x => goTrim x.courseCode)) ++ miss).isEmpty
             else decide (u ≥ unitsReqOf g),
           unitsCompleted := u, unitsRequired := unitsReqOf g,
           missingCourses := (((c₀ :: (cs ++ [c])).filter (fun x => x.courseCode ≠ "")).map
                  (fun x => goTrim x.courseCode)) ++ miss } :: rows) := by
  have hwc : walkCourses completed g.courses =
      some (u, (((c₀ :: (cs ++ [c])).filter (fun x => x.courseCode ≠ "")).map
                  (fun x => goTrim x.courseCode)) ++ miss) := by
    rw [hcourses, walkCourses_chain completed c₀ cs c rest h₀ hcs hc]
    simp only [hfind, hrest]
  refine ⟨hwc, ?_⟩
  intro rq cu rows hch
  exact walkGroup_noncontainer completed g u _ rq cu rows hcont
    (Or.inl (by rw [hcourses]; exact List.cons_ne_nil _ _)) hwc hch

/-- Witness for C5: with nothing completed, the three-course OR-chain puts
exactly its three codes on the group's missing list. -/
theorem C5_unsatisfied_chain_missing_witness :
    walkCourses [] orGroup.courses = some (0, ["M 1B03", "M 4Z13", "M 1ZB3"]) ∧
    walkGroup [] orGroup =
      some (0, 0, [{ heading := "OrChain", satisfied := false, unitsCompleted := 0,
                     unitsRequired := 0,
                     missingCourses := ["M 1B03", "M 4Z13", "M 1ZB3"] }]) := by
  have h := C5_unsatisfied_chain_missing [] orGroup orSlotA [orSlotB] orSlotC [] 0 []
    (by decide) (by decide) (by decide) (by decide) (by decide) (by decide)
    (by simp [walkCourses])
  constructor
  · rw [h.1]; decide
  · have h2 := h.2 0 0 [] (by simp [walkGroupList, orGroup, RequirementGroup.children])
    rw [h2]; decide

/-- Rows emitted by the walk over a forest of groups are exactly one row
per non-container node, in pre-order (witnessed by their headings). -/
theorem walkGroupList_headings (completed : List String) (gs : List RequirementGroup) :
    ∀ rq cu rows, walkGroupList completed gs = some (rq, cu, rows) →
      rows.map GroupResult.heading =
        (preorderNonContainersList gs).map RequirementGroup.heading := by
  match gs with
  | [] =>
    intro rq cu rows h
    rw [walkGroupList] at h
    cases h
    simp [preorderNonContainersList]
  | g :: rest =>
    intro rq cu rows h
    have ih1 := walkGroupList_headings completed g.children
    have ih2 := walkGroupList_headings completed rest
    rw [walkGroupList] at h
    rw [walkGroup] at h
    by_cases hcond : (g.isContainer ||
        (g.courses.length == 0 && decide (g.children.length > 0))) = true
    · rw [hcond] at h
      cases h1 : walkGroupList completed g.children with
      | none => rw [h1] at h; cases h
      | some a =>
        obtain ⟨rq1, cu1, rows1⟩ := a
        rw [h1] at h
        cases h2 : walkGroupList completed rest with
        | none => rw [h2] at h; cases h
        | some b =>
          obtain ⟨rq2, cu2, rows2⟩ := b
          rw [h2] at h
          cases h
          simp [preorderNonContainersList, preorderNonContainers, hcond,
            ih1 rq1 cu1 rows1 h1, ih2 rq2 cu2 rows2 h2]
    · rw [Bool.not_eq_true] at hcond
      rw [hcond] at h
      simp only [Bool.false_eq_true, if_false] at h
      cases h0 : walkCourses completed g.courses with
      | none => rw [h0] at h; cases h
      | some p =>
        obtain ⟨u, miss⟩ := p
        rw [h0] at h
        cases h1 : walkGroupList completed g.children with
        | none => rw [h1] at h; cases h
        | some a =>
          obtain ⟨rq1, cu1, rows1⟩ := a
          rw [h1] at h
          cases h2 : walkGroupList completed rest with
          | none => rw [h2] at h; cases h
          | some b =>
            obtain ⟨rq2, cu2, rows2⟩ := b
            rw [h2] at h
            cases h
            simp [preorderNonContainersList, preorderNonContainers, hcond,
              ih1 rq1 cu1 rows1 h1, ih2 rq2 cu2 rows2 h2]
termination_by sizeOf gs
decreasing_by
  all_goals cases g
  all_goals simp [RequirementGroup.children]
  all_goals omega

/-- Claim C3: a container group (explicit flag, or children present with
zero course slots) contributes no `GroupResult` row of its own — the walk
just recurses into its children — and the rows the walk emits are exactly
one per non-container node of the subtree, in pre-order. -/
theorem C3_container_pass_through (completed : List String) (g : RequirementGroup) :
    ((g.isContainer = true ∨ (g.courses = [] ∧ g.children ≠ [])) →
      walkGroup completed g = walkGroupList completed g.children) ∧
    (∀ rq cu rows, walkGroup completed g = some (rq, cu, rows) →
      rows.map GroupResult.heading =
        (preorderNonContainers g).map RequirementGroup.heading) := by
  constructor
  · intro hcase
    have hcond : (g.isContainer ||
        (g.courses.length == 0 && decide (g.children.length > 0))) = true := by
      rcases hcase with h | ⟨h1, h2⟩
      · simp [h]
      · have h3 : 0 < g.children.length := List.length_pos.mpr h2
        simp [h1, h3]
    rw [walkGroup, hcond]
    simp
  · intro rq cu rows h
    have hl : walkGroupList completed [g] = some (rq, cu, rows) := by
      simp [walkGroupList, h]
    have hh := walkGroupList_headings completed [g] rq cu rows hl
    simpa [preorderNonContainersList] using hh

/-- Witness for C3: the sample container (two leaf children, no direct
slots) emits no row of its own, and the walk's rows are its two
descendants' headings in pre-order. -/
theorem C3_container_pass_through_witness :
    walkGroup [] containerGroup = walkGroupList [] containerGroup.children ∧
    (preorderNonContainers containerGroup).map RequirementGroup.heading =
      ["Core", "OrChain"] := by
  have h := C3_container_pass_through [] containerGroup
  refine ⟨h.1 (Or.inl (by decide)), ?_⟩
  have h2 := h.2 6 0
    [{ heading := "Core", satisfied := false, unitsCompleted := 0, unitsRequired := 6,
       missingCourses := ["CS 1A03", "CS 1B03"] },
     { heading := "OrChain", satisfied := false, unitsCompleted := 0, unitsRequired := 0,
       missingCourses := ["M 1B03", "M 4Z13", "M 1ZB3"] }]
    (by simp +decide [walkGroup, walkGroupList, walkCourses, chainTail, goTrim, goIsSpace,
      splitN2, breakAtSpace, unitsFromCourseNumber, suffix2, goAtoi, parseDigits,
      defaultUnitsPerCourse, containerGroup, coreGroup, orGroup, slotA03, slotB03,
      orSlotA, orSlotB, orSlotC, List.find?, RequirementGroup.isContainer,
      RequirementGroup.children, RequirementGroup.courses, RequirementGroup.heading,
      RequirementGroup.unitsRequired, RequirementGroup.coursesRequired])
  rw [← h2]
  decide

/-- Claim C2: for a plan item whose status is PLANNED or IN_PROGRESS
(case-insensitive) with PREREQ rows from the lookup: no warning is emitted
when any option's key is in the completion index; exactly one warning,
joining every option with " or ", is emitted when none is; a course with
zero PREREQ rows never produces a warning. -/
theorem C2_prereq_or_semantics (lookup : RequisiteLookup) (planItems : List PlanItem)
    (pi : PlanItem) (rest : List PlanItem) (rows : List (String × String))
    (hstatus : goToUpper pi.status = "PLANNED" ∨ goToUpper pi.status = "IN_PROGRESS")
    (hlookup : lookup pi.subject pi.courseNumber = .ok rows) :
    (rows ≠ [] →
      (rows.map (fun r => goTrim (r.1 ++ " " ++ r.2))).any
          (completedSet planItems).contains = true →
      prereqPass lookup (completedSet planItems) (pi :: rest) =
        prereqPass lookup (completedSet planItems) rest) ∧
    (rows ≠ [] →
      (rows.map (fun r => goTrim (r.1 ++ " " ++ r.2))).any
          (completedSet planItems).contains = false →
      prereqPass lookup (completedSet planItems) (pi :: rest) =
        (prereqPass lookup (completedSet planItems) rest).map
          (fun ws => { course := goTrim (pi.subject ++ " " ++ pi.courseNumber),
                       missingPrereq := goJoin " or "
                         (rows.map (fun r => goTrim (r.1 ++ " " ++ r.2))) } :: ws)) ∧
    (rows = [] →
      prereqPass lookup (completedSet planItems) (pi :: rest) =
        prereqPass lookup (completedSet planItems) rest) := by
  have hneg : ¬ (goToUpper pi.status ≠ "PLANNED" ∧ goToUpper pi.status ≠ "IN_PROGRESS") := by
    rcases hstatus with h | h <;> simp [h]
  refine ⟨?_, ?_, ?_⟩
  · intro hne hany
    rw [prereqPass]
    simp only [if_neg hneg, hlookup]
    cases hrec : prereqPass lookup (completedSet planItems) rest with
    | error e => simp
    | ok ws =>
      have hcond : ¬ (0 < (rows.map (fun r => goTrim (r.1 ++ " " ++ r.2))).length ∧
          ¬ (rows.map (fun r => goTrim (r.1 ++ " " ++ r.2))).any
              (completedSet planItems).contains = true) := by
        simp [hany]
      simp only [if_neg hcond]
  · intro hne hany
    rw [prereqPass]
    simp only [if_neg hneg, hlookup]
    cases hrec : prereqPass lookup (completedSet planItems) rest with
    | error e => simp [Except.map]
    | ok ws =>
      have hcond : 0 < (rows.map (fun r => goTrim (r.1 ++ " " ++ r.2))).length ∧
          ¬ (rows.map (fun r => goTrim (r.1 ++ " " ++ r.2))).any
              (completedSet planItems).contains = true := by
        constructor
        · simp only [List.length_map, List.length_pos]
          exact hne
        · simp [hany]
      simp only [if_pos hcond, Except.map]
  · intro hnil
    subst hnil
    rw [prereqPass]
    simp only [if_neg hneg, hlookup]
    cases hrec : prereqPass lookup (completedSet planItems) rest with
    | error e => simp
    | ok ws => simp

/-- Witness for C2: a planned CS 2C03 with two alternative prerequisites,
neither completed, yields exactly one warning joining both with " or ". -/
theorem C2_prereq_or_semantics_witness :
    prereqPass twoPrereqLookup (completedSet [plannedItem]) [plannedItem] =
      .ok [{ course := "CS 2C03", missingPrereq := "CS 1A03 or CS 1B03" }] := by
  have h := (C2_prereq_or_semantics twoPrereqLookup [plannedItem] plannedItem []
    [("CS", "1A03"), ("CS", "1B03")] (Or.inl (by decide)) rfl).2.1
    (by decide) (by decide)
  rw [h]
  have hempty : prereqPass twoPrereqLookup (completedSet [plannedItem]) [] = .ok [] := rfl
  rw [hempty]
  simp only [Except.map, Except.ok.injEq]
  decide

/-- Claim C7: whenever `ValidatePlan` returns a result — a normal return
or an error return — `units_remaining` equals
`max 0 (total_units_required - total_units_completed)`, hence is never
negative. -/
theorem C7_units_remaining_clamped (lookup : RequisiteLookup)
    (planItems : List PlanItem) (program : Program) (r : ValidationResult) (e : String)
    (h : ValidatePlan lookup planItems program = GoOutcome.ok r ∨
         ValidatePlan lookup planItems program = GoOutcome.fail r e) :
    r.unitsRemaining = max 0 (r.totalUnitsRequired - r.totalUnitsCompleted) ∧
    0 ≤ r.unitsRemaining := by
  have hmain : r.unitsRemaining = max 0 (r.totalUnitsRequired - r.totalUnitsCompleted) := by
    rcases h with h | h
    · rw [ValidatePlan] at h
      cases hpp : prereqPass lookup (completedSet planItems) planItems with
      | error e2 => rw [hpp] at h; cases h
      | ok ws =>
        rw [hpp] at h
        cases hwl : walkGroupList (completedSet planItems) program.groups with
        | none => rw [hwl] at h; cases h
        | some t =>
          obtain ⟨tr, tc, rows⟩ := t
          rw [hwl] at h
          cases h
          dsimp only
          rw [max_def]
          split_ifs <;> omega
    · rw [ValidatePlan] at h
      cases hpp : prereqPass lookup (completedSet planItems) planItems with
      | error e2 =>
        rw [hpp] at h
        cases h
        simp [zeroValidationResult]
      | ok ws =>
        rw [hpp] at h
        cases hwl : walkGroupList (completedSet planItems) program.groups with
        | none => rw [hwl] at h; cases h
        | some t =>
          obtain ⟨tr, tc, rows⟩ := t
          rw [hwl] at h
          cases h
  exact ⟨hmain, by rw [hmain]; exact le_max_left 0 _⟩

/-- Witness for C7 at the spec's Core scenario (6 required, 3 completed):
remaining is the clamped difference. -/
theorem C7_units_remaining_clamped_witness :
    coreResult.unitsRemaining =
      max 0 (coreResult.totalUnitsRequired - coreResult.totalUnitsCompleted) ∧
    0 ≤ coreResult.unitsRemaining :=
  C7_units_remaining_clamped emptyLookup corePlan coreProgram coreResult ""
    (Or.inl (by simp +decide [ValidatePlan, prereqPass, walkGroup, walkGroupList,
      walkCourses, completedSet, chainTail, goTrim, goToUpper, goUpperChar, goIsSpace,
      goEqualFold, goJoin, splitN2, breakAtSpace, unitsFromCourseNumber, suffix2, goAtoi,
      parseDigits, defaultUnitsPerCourse, zeroValidationResult, emptyLookup, corePlan,
      coreProgram, coreGroup, coreResult, slotA03, slotB03, List.find?,
      RequirementGroup.isContainer, RequirementGroup.children, RequirementGroup.courses,
      RequirementGroup.heading, RequirementGroup.unitsRequired,
      RequirementGroup.coursesRequired]))

/-- A lookup failure at some active plan item makes the warning loop
return the first such error. -/
theorem prereqPass_error (lookup : RequisiteLookup) (completed : List String)
    (l : List PlanItem) (pi : PlanItem) (e₀ : String)
    (hmem : pi ∈ l)
    (hstatus : goToUpper pi.status = "PLANNED" ∨ goToUpper pi.status = "IN_PROGRESS")
    (herr : lookup pi.subject pi.courseNumber = .error e₀) :
    ∃ e, prereqPass lookup completed l = .error e ∧
      ∃ pj, pj ∈ l ∧
        (goToUpper pj.status = "PLANNED" ∨ goToUpper pj.status = "IN_PROGRESS") ∧
        lookup pj.subject pj.courseNumber = .error e := by
  induction l with
  | nil => cases hmem
  | cons a t ih =>
    by_cases ha : goToUpper a.status ≠ "PLANNED" ∧ goToUpper a.status ≠ "IN_PROGRESS"
    · have hpi : pi ∈ t := by
        rcases List.mem_cons.mp hmem with h | h
        · subst h; rcases hstatus with h | h
          · exact absurd h ha.1
          · exact absurd h ha.2
        · exact h
      obtain ⟨e, he, pj, hpj, hact, herr2⟩ := ih hpi
      refine ⟨e, ?_, pj, List.mem_cons_of_mem a hpj, hact, herr2⟩
      rw [prereqPass, if_pos ha]
      exact he
    · have hact : goToUpper a.status = "PLANNED" ∨ goToUpper a.status = "IN_PROGRESS" := by
        rcases not_and_or.mp ha with h | h
        · exact Or.inl (not_not.mp h)
        · exact Or.inr (not_not.mp h)
      cases hla : lookup a.subject a.courseNumber with
      | error e1 =>
        refine ⟨e1, ?_, a, List.mem_cons_self a t, hact, hla⟩
        rw [prereqPass, if_neg ha, hla]
      | ok rows =>
        have hpi : pi ∈ t := by
          rcases List.mem_cons.mp hmem with h | h
          · subst h; rw [herr] at hla; cases hla
          · exact h
        obtain ⟨e, he, pj, hpj, hact2, herr2⟩ := ih hpi
        refine ⟨e, ?_, pj, List.mem_cons_of_mem a hpj, hact2, herr2⟩
        rw [prereqPass, if_neg ha, hla, he]

/-- Claim C8: a requisite-lookup failure for some planned or in-progress
plan item makes `ValidatePlan` return the zero `ValidationResult` together
with a single propagated lookup error — no partial groups, totals or
warnings. -/
theorem C8_error_returns_zero_result (lookup : RequisiteLookup)
    (planItems : List PlanItem) (program : Program) (pi : PlanItem) (e₀ : String)
    (hmem : pi ∈ planItems)
    (hstatus : goToUpper pi.status = "PLANNED" ∨ goToUpper pi.status = "IN_PROGRESS")
    (herr : lookup pi.subject pi.courseNumber = .error e₀) :
    ∃ e, ValidatePlan lookup planItems program = GoOutcome.fail zeroValidationResult e ∧
      ∃ pj, pj ∈ planItems ∧
        (goToUpper pj.status = "PLANNED" ∨ goToUpper pj.status = "IN_PROGRESS") ∧
        lookup pj.subject pj.courseNumber = .error e := by
  obtain ⟨e, he, hpj⟩ := prereqPass_error lookup (completedSet planItems) planItems pi e₀
    hmem hstatus herr
  refine ⟨e, ?_, hpj⟩
  rw [ValidatePlan]
  rw [he]

/-- Witness for C8: a failing lookup on a planned CS course yields the
zero result and the propagated error. -/
theorem C8_error_returns_zero_result_witness :
    ∃ e, ValidatePlan failingLookup [plannedItem] coreProgram =
        GoOutcome.fail zeroValidationResult e ∧
      ∃ pj, pj ∈ [plannedItem] ∧
        (goToUpper pj.status = "PLANNED" ∨ goToUpper pj.status = "IN_PROGRESS") ∧
        failingLookup pj.subject pj.courseNumber = .error e :=
  C8_error_returns_zero_result failingLookup [plannedItem] coreProgram plannedItem
    "db down" (by decide) (Or.inl (by decide)) rfl

/-- Claim C9: a non-container group with a negative explicit
`units_required` adds nothing to the running required total, reports the
negative value verbatim in its row, and is satisfied by the numeric
comparison alone (so any non-negative completed units satisfy it); the
missing-list rule applies only when the resolved threshold is exactly 0. -/
theorem C9_negative_units_required (completed : List String) (g : RequirementGroup)
    (n u : Int) (miss : List String) (rq cu : Int) (rows : List GroupResult)
    (hcont : g.isContainer = false) (hlc : g.courses ≠ [] ∨ g.children = [])
    (hur : g.unitsRequired = some n) (hneg : n < 0)
    (hwc : walkCourses completed g.courses = some (u, miss))
    (hch : walkGroupList completed g.children = some (rq, cu, rows)) :
    walkGroup completed g = some
      (rq, (if 0 < u then u else 0) + cu,
       { heading := g.heading, satisfied := decide (u ≥ n),
         unitsCompleted := u, unitsRequired := n, missingCourses := miss } :: rows) ∧
    (0 ≤ u → u ≥ n) := by
  have hreq : unitsReqOf g = n := by rw [unitsReqOf, hur]
  have h := walkGroup_noncontainer completed g u miss rq cu rows hcont hlc hwc hch
  rw [hreq] at h
  have hbeq : (n == 0) = false := by
    have hne : n ≠ 0 := by omega
    simpa using hne
  rw [hbeq] at h
  simp only [Bool.false_eq_true, if_false, if_neg (by omega : ¬ 0 < n), zero_add] at h
  exact ⟨h, fun hu => by omega⟩

/-- Witness for C9: a group requiring -5 units with nothing completed is
satisfied, reports -5 verbatim, and contributes nothing to the totals. -/
theorem C9_negative_units_required_witness :
    walkGroup [] negGroup = some (0, 0,
      [{ heading := "Neg", satisfied := true, unitsCompleted := 0, unitsRequired := -5,
         missingCourses := ["CS 1B03"] }]) ∧ ((0 : Int) ≤ 0 → (0 : Int) ≥ -5) := by
  have h := C9_negative_units_required [] negGroup (-5) 0 ["CS 1B03"] 0 0 []
    (by decide) (Or.inl (by decide)) (by decide) (by decide)
    (by simp +decide [walkCourses, negGroup, slotB03, goTrim, goIsSpace,
      RequirementGroup.courses])
    (by simp [walkGroupList, negGroup, RequirementGroup.children])
  constructor
  · rw [h.1]; decide
  · exact h.2

/-- One step of the completion index over a plan list. -/
theorem completedSet_cons (a : PlanItem) (t : List PlanItem) :
    completedSet (a :: t) =
      if goEqualFold a.status "COMPLETED" then
        goTrim (a.subject ++ " " ++ a.courseNumber) :: completedSet t
      else completedSet t := by
  rw [completedSet, completedSet, List.filter_cons]
  split <;> simp

/-- Normalising case-insensitively completed statuses to upper-case
COMPLETED leaves the completion index unchanged. -/
theorem completedSet_normalize (l : List PlanItem) :
    completedSet (l.map normalizeCompleted) = completedSet l := by
  induction l with
  | nil => rfl
  | cons a t ih =>
    rw [List.map_cons, completedSet_cons, completedSet_cons, ih]
    by_cases h : goEqualFold a.status "COMPLETED" = true
    · have hna : normalizeCompleted a = { a with status := "COMPLETED" } := by
        rw [normalizeCompleted, if_pos h]
      rw [hna, h]
      have hCC : goEqualFold ({ a with status := "COMPLETED" } : PlanItem).status
          "COMPLETED" = true := rfl
      rw [hCC]
    · have hna : normalizeCompleted a = a := by rw [normalizeCompleted, if_neg h]
      rw [hna]

/-- Normalising completed statuses leaves the warning loop unchanged. -/
theorem prereqPass_normalize (lookup : RequisiteLookup) (completed : List String)
    (l : List PlanItem) :
    prereqPass lookup completed (l.map normalizeCompleted) =
      prereqPass lookup completed l := by
  induction l with
  | nil => rfl
  | cons a t ih =>
    by_cases h : goEqualFold a.status "COMPLETED" = true
    · have hup : goToUpper a.status = "COMPLETED" := by
        have h2 : goToUpper a.status = goToUpper "COMPLETED" := by
          simpa [goEqualFold] using h
        rw [h2]
        decide
      have hna : normalizeCompleted a = { a with status := "COMPLETED" } := by
        rw [normalizeCompleted, if_pos h]
      rw [List.map_cons, hna, prereqPass, prereqPass]
      have hCU : goToUpper ({ a with status := "COMPLETED" } : PlanItem).status =
          "COMPLETED" := rfl
      rw [if_pos (by rw [hCU]; exact (by decide : ("COMPLETED" : String) ≠ "PLANNED" ∧
            ("COMPLETED" : String) ≠ "IN_PROGRESS"))]
      rw [if_pos (by rw [hup]; exact (by decide : ("COMPLETED" : String) ≠ "PLANNED" ∧
            ("COMPLETED" : String) ≠ "IN_PROGRESS"))]
      exact ih
    · have hna : normalizeCompleted a = a := by rw [normalizeCompleted, if_neg h]
      rw [List.map_cons, hna, prereqPass, prereqPass, ih]

/-- Claim C10: plan items completed under case-insensitive status
comparison (e.g. "completed", "Completed") enter the completion index and
drive the whole validation exactly as upper-case COMPLETED items do:
normalising them to COMPLETED changes neither the completion index nor any
output of `ValidatePlan`. -/
theorem C10_completed_status_case_insensitive (lookup : RequisiteLookup)
    (planItems : List PlanItem) (program : Program) :
    completedSet (planItems.map normalizeCompleted) = completedSet planItems ∧
    ValidatePlan lookup (planItems.map normalizeCompleted) program =
      ValidatePlan lookup planItems program := by
  refine ⟨completedSet_normalize planItems, ?_⟩
  rw [ValidatePlan, ValidatePlan, completedSet_normalize planItems,
    prereqPass_normalize lookup (completedSet planItems) planItems]

end Mactrack
